import Mathlib

set_option linter.unusedSectionVars false
set_option maxRecDepth 100000

/-!
# Verification of the `fleastore` persistence and residency subsystem

This file gives a shallow embedding, in Lean 4, of the Go storage engine
`fleastore` (files `store.go`, `offline.go`, `options.go`, `snapshot.go`,
the WAL module and `replayWAL`), and settles the frozen claims about it.

Modelling conventions:
* Go pointers to heap-allocated `record` cells, shared between the ordered
  slice `s.records` and the map `s.index`, are modelled by keeping the
  records in a `List` and letting the index map identifiers to positions
  in that list; mutation through either alias is a `List.set` at the
  position.
* The Go map `index` is modelled as an association list built in key
  insertion order.  Go's map iteration order is unspecified, so every
  place the code ranges over the map takes the enumeration from an order
  oracle `piOrder : List (ID × Nat) → List ID`; the concrete executions
  use the canonical oracle that lists the keys in insertion order, and
  the general theorems only assume the oracle enumerates every key.
* Disk writes cannot be performed in a pure model, so the WAL file, the
  overflow file (`data.ndjson`) and their failure modes are explicit:
  the file contents are lists of (already decoded) values carried in the
  state, and each operation takes boolean device flags (`walOk`,
  `overflowOk`); a `false` flag makes the corresponding append fail,
  atomically, with an I/O error, exactly where the Go code would receive
  a non-nil `error`.
* Go functions returning `(value, error)` pairs are modelled as returning
  the pair `value × Option GoErr`; since the Go methods mutate the store
  in place and may return an error after a partial mutation, every
  state-mutating operation returns the (possibly partially mutated)
  state alongside its Go return values.
* A nil-pointer dereference (`*rec.value` with `rec.value == nil`) is a
  Go runtime panic; it is modelled as the distinguished error
  `GoErr.nilDeref` aborting the operation at that point.
-/

namespace Flea

/-- Errors surfaced by the engine (`error` values in Go, plus the runtime
panic of a nil-pointer dereference). -/
inductive GoErr : Type where
  | ioFail : GoErr
  | nilDeref : GoErr
  | idErr : GoErr
  | checkErr : GoErr
  | misconfigured : GoErr
  deriving DecidableEq, Repr

/-- `record[T]` from `store.go`: `value *T` (nil when demoted) and the
tombstone flag `deleted`. -/
structure Rec (T : Type) where
  value : Option T
  deleted : Bool
  deriving DecidableEq, Repr

/-- A WAL entry (`walOp`): either **Put**(id, body) or **Delete**(id)
(`opPut` / `opDelete` in the Go source). -/
inductive WalEntry (ID T : Type) where
  | put (id : ID) (value : T)
  | del (id : ID)
  deriving DecidableEq, Repr

/-- The mutable state of a `Store[ID, T]`: the ordered record table, the
id index (association list of id and position into `records`), the
`dirty` flag, the `onlineCount` counter (a Go `int`, so it may go
negative), and the decoded contents of the two on-disk append-only files
owned by the store (WAL and overflow `data.ndjson`). -/
structure State (ID T : Type) where
  records : List (Rec T)
  index : List (ID × Nat)
  dirty : Bool
  onlineCount : Int
  wal : List (WalEntry ID T)
  overflow : List T
  hasOfflineData : Bool
  deriving DecidableEq, Repr

/-- The immutable configuration of a store, assembled by `Open` from the
validated `Options`: `idFunc` (returning a Go `(ID, error)` pair),
the `checkers` chain, the residency predicate, `maxOnline`
(`MaxOnlineRecords`, `-1` when the option was absent), the zero value of
the `ID` type (what `var zero ID` produces), and the map-iteration order
oracle `piOrder` standing for Go's unspecified map range order. -/
structure Cfg (ID T : Type) where
  idFunc : T → ID × Option GoErr
  checkers : List (Option T → T → Option T × Option GoErr)
  residencyFn : Option (T → Bool)
  maxOnline : Int
  zeroID : ID
  piOrder : List (ID × Nat) → List ID

variable {ID T : Type} [DecidableEq ID]

/-- Association-list lookup, the model of `s.index[id]` (first entry with
the given key). -/
def lookupIdx (ix : List (ID × Nat)) (id : ID) : Option Nat :=
  match ix with
  | [] => none
  | (k, p) :: rest => if k = id then some p else lookupIdx rest id

/-- `delete(s.index, id)` on the Go map: id is no longer present. -/
def removeKey (ix : List (ID × Nat)) (id : ID) : List (ID × Nat) :=
  ix.filter (fun kv => kv.1 ≠ id)

/-- The canonical order oracle: enumerate the map keys in insertion
order.  One admissible realization of Go's arbitrary map range order. -/
def canonicalOrder : List (ID × Nat) → List ID :=
  fun ix => ix.map Prod.fst

/-- An order oracle is admissible when it enumerates (at least) every key
of the map, as Go's `for id := range s.index` does. -/
def Covers (pi : List (ID × Nat) → List ID) : Prop :=
  ∀ ix : List (ID × Nat), ∀ kv ∈ ix, kv.1 ∈ pi ix

/-- `addOrUpdate` (store.go): if the id is known, overwrite the record's
body and clear the tombstone flag in place; otherwise append a fresh
Resident record, map the id to it and increment `onlineCount`. -/
def addOrUpdate (s : State ID T) (id : ID) (v : T) : State ID T :=
  match lookupIdx s.index id with
  | some p =>
      { s with records := s.records.set p ⟨some v, false⟩ }
  | none =>
      { s with records := s.records ++ [⟨some v, false⟩],
               index := s.index ++ [(id, s.records.length)],
               onlineCount := s.onlineCount + 1 }

/-- `deleteByID` (WAL replay helper): tombstone the record, drop the id
from the index, set `dirty`.  Missing ids are ignored. -/
def deleteByID (s : State ID T) (id : ID) : State ID T :=
  match lookupIdx s.index id with
  | none => s
  | some p =>
      match s.records.get? p with
      | none => s
      | some r =>
          { s with records := s.records.set p ⟨r.value, true⟩,
                   index := removeKey s.index id,
                   dirty := true }

/-- The body currently stored for `id` (`rec.value`, possibly nil), what
`Put`/`PutAll` pass to the checkers as `current`/`old`. -/
def currentOf (s : State ID T) (id : ID) : Option T :=
  match lookupIdx s.index id with
  | none => none
  | some p =>
      match s.records.get? p with
      | none => none
      | some r => r.value

/-- `runCheckers` (store.go): fold the checker chain; an error aborts, a
non-nil replacement becomes the next input.  The Go `current` pointer
starts at `&new` and is only ever replaced by non-nil checker outputs,
so the trailing `if current == nil` branch of the source is dead and the
successful result is always a value. -/
def runCheckers (checkers : List (Option T → T → Option T × Option GoErr))
    (old : Option T) (new : T) : T × Option GoErr :=
  match checkers with
  | [] => (new, none)
  | c :: rest =>
      match c old new with
      | (_, some e) => (new, some e)
      | (some t, none) => runCheckers rest old t
      | (none, none) => runCheckers rest old new

/-- `wal.append` (the WAL module): append the whole group of entries,
flushed and synced, or fail atomically with an I/O error. -/
def walAppend (walOk : Bool) (s : State ID T) (ops : List (WalEntry ID T)) :
    State ID T × Option GoErr :=
  if walOk then ({ s with wal := s.wal ++ ops }, none)
  else (s, some GoErr.ioFail)

/-- `appendOffline` (offline.go): encode the batch and append it to
`data.ndjson`.  The 32 KiB user-space buffer only coalesces byte writes;
the sequence of bodies appended to the file is the batch in order, which
is what this model records.  A `false` device flag fails the append
atomically. -/
def appendOffline (overflowOk : Bool) (s : State ID T) (batch : List T) :
    State ID T × Option GoErr :=
  if overflowOk then ({ s with overflow := s.overflow ++ batch }, none)
  else (s, some GoErr.ioFail)

/-- How the residency loop of `handleResidency` terminated: it either ran
out of ids, hit the cap `break`, or took the (dead) early `return nil`
branch guarded by `len(offline) == 0`. -/
inductive LoopExit : Type where
  | finished : LoopExit
  | broke : LoopExit
  | earlyNil : LoopExit
  deriving DecidableEq, Repr

/-- The id loop of `handleResidency` (offline.go lines 140-172): resolve
each id, skip missing / already demoted / kept records, otherwise record
the body for demotion, clear it in place, decrement `onlineCount`, and
stop early once a configured cap is reached.  Returns the mutated state,
the collected bodies, and how the loop exited. -/
def residencyLoop (keep : T → Bool) (maxOnline : Int) :
    List ID → State ID T → List T → State ID T × List T × LoopExit
  | [], s, off => (s, off, LoopExit.finished)
  | id :: rest, s, off =>
    match lookupIdx s.index id with
    | none => residencyLoop keep maxOnline rest s off
    | some p =>
      match s.records.get? p with
      | none => residencyLoop keep maxOnline rest s off
      | some r =>
        match r.value with
        | none => residencyLoop keep maxOnline rest s off
        | some v =>
          if keep v then residencyLoop keep maxOnline rest s off
          else
            let off' := off ++ [v]
            let s' := { s with records := s.records.set p ⟨none, r.deleted⟩,
                               onlineCount := s.onlineCount - 1 }
            if maxOnline ≥ 0 ∧ s'.onlineCount ≤ maxOnline then
              (s', off', LoopExit.broke)
            else if off'.length = 0 then
              (s', off', LoopExit.earlyNil)
            else
              residencyLoop keep maxOnline rest s' off'

/-- `handleResidency` (offline.go lines 124-174): return immediately when
no residency predicate is configured, or when a cap is configured and
`len(s.index)` does not exceed it; otherwise snapshot the map keys, run
the demotion loop, and append the collected bodies to the overflow file
(unless the dead `len(offline) == 0` early return fired). -/
def handleResidency (cfg : Cfg ID T) (overflowOk : Bool) (s : State ID T) :
    State ID T × Option GoErr :=
  match cfg.residencyFn with
  | none => (s, none)
  | some keep =>
    if cfg.maxOnline ≥ 0 ∧ (s.index.length : Int) ≤ cfg.maxOnline then (s, none)
    else
      match residencyLoop keep cfg.maxOnline (cfg.piOrder s.index) s [] with
      | (s', _, LoopExit.earlyNil) => (s', none)
      | (s', off, LoopExit.finished) => appendOffline overflowOk s' off
      | (s', off, LoopExit.broke) => appendOffline overflowOk s' off

/-- `Put` (store.go lines 322-367): compute the id, fetch the current
body, run the checker chain (its output replaces the proposed value),
append a WAL Put entry (on failure return the zero `ID` and the error
with no in-memory mutation), apply `addOrUpdate`, then run the residency
pass, whose error the Go code discards. -/
def Put (cfg : Cfg ID T) (walOk overflowOk : Bool) (s : State ID T) (value : T) :
    (ID × Option GoErr) × State ID T :=
  match cfg.idFunc value with
  | (id, some e) => ((id, some e), s)
  | (id, none) =>
    let current := currentOf s id
    match runCheckers cfg.checkers current value with
    | (_, some e) => ((id, some e), s)
    | (value2, none) =>
      match walAppend walOk s [WalEntry.put id value2] with
      | (_, some e) => ((cfg.zeroID, some e), s)
      | (s1, none) =>
        let s2 := addOrUpdate s1 id value2
        let s3 := (handleResidency cfg overflowOk s2).1
        ((id, none), s3)

/-- One phase-1 step of `PutAll`: compute the id and run the checkers for
one body.  The checker output is discarded (`_, err = s.runCheckers`),
only its error is observed, and the pending WAL entry carries the
original proposed value. -/
def putAllPhase1 (cfg : Cfg ID T) (s : State ID T) :
    List T → List (WalEntry ID T) → List ID →
    (List (WalEntry ID T) × List ID) × Option (List ID × GoErr)
  | [], pending, ids => ((pending, ids), none)
  | v :: rest, pending, ids =>
    match cfg.idFunc v with
    | (id, some e) => ((pending, ids), some ([id], e))
    | (id, none) =>
      match runCheckers cfg.checkers (currentOf s id) v with
      | (_, some e) => ((pending, ids), some ([id], e))
      | (_, none) =>
          putAllPhase1 cfg s rest (pending ++ [WalEntry.put id v]) (ids ++ [id])

/-- `PutAll` (store.go lines 369-417): phase 1 computes ids and runs the
checkers for every body against the unmodified state; any failure aborts
with the state untouched.  Phase 2 appends all WAL entries as one group,
applies `addOrUpdate` for each pending entry, and runs one residency
pass (error discarded). -/
def PutAll (cfg : Cfg ID T) (walOk overflowOk : Bool) (s : State ID T)
    (values : List T) : (List ID × Option GoErr) × State ID T :=
  match putAllPhase1 cfg s values [] [] with
  | (_, some (ids, e)) => ((ids, some e), s)
  | ((pending, ids), none) =>
    match walAppend walOk s pending with
    | (_, some e) => (([], some e), s)
    | (s1, none) =>
      let s2 := pending.foldl
        (fun st op =>
          match op with
          | WalEntry.put id v => addOrUpdate st id v
          | WalEntry.del _ => st) s1
      let s3 := (handleResidency cfg overflowOk s2).1
      ((ids, none), s3)

/-- The online half of `Get`: walk the record table in insertion order,
skipping tombstoned records and demoted (nil-body) records, and keep the
bodies satisfying the predicate. -/
def getOnline (p : T → Bool) : List (Rec T) → List T
  | [] => []
  | r :: rest =>
    if r.deleted then getOnline p rest
    else
      match r.value with
      | none => getOnline p rest
      | some v => if p v then v :: getOnline p rest else getOnline p rest

/-- `getOfflineMatching`'s batching loop (store.go lines 548-602): decoded
bodies are accumulated into batches of 1000; each full batch, and the
final partial batch, is filtered by the predicate and appended to the
result. -/
def scanOffline (p : T → Bool) (batch : List T) : List T → List T
  | [] => batch.filter p
  | v :: rest =>
    let batch' := batch ++ [v]
    if batch'.length = 1000 then batch'.filter p ++ scanOffline p [] rest
    else scanOffline p batch' rest

/-- `getOfflineMatching` (store.go): stream `data.ndjson` (modelled by the
decoded body list `s.overflow`) in batches of 1000 and filter. -/
def getOfflineMatching (p : T → Bool) (s : State ID T) : List T :=
  scanOffline p [] s.overflow

/-- `Get` (store.go lines 419-446): a nil predicate yields nil; otherwise
collect the online matches in record-table order and, when the store has
offline data, append the overflow matches. -/
def Get (p : Option (T → Bool)) (s : State ID T) : List T :=
  match p with
  | none => []
  | some p =>
    let out := getOnline p s.records
    if s.hasOfflineData then out ++ getOfflineMatching p s else out

/-- The id loop of `Delete` (store.go lines 448-466): for each mapped id,
skip tombstoned records; otherwise the code evaluates `p(*rec.value)`,
which dereferences a nil pointer — a runtime panic — when the record is
demoted.  On a match: append a WAL Delete (an append error returns nil
results and the error), tombstone the record, unmap the id, collect the
body, set `dirty`. -/
def deleteLoop (p : T → Bool) (walOk : Bool) :
    List ID → State ID T → List T → State ID T × Option (List T) × Option GoErr
  | [], s, out => (s, some out, none)
  | id :: rest, s, out =>
    match lookupIdx s.index id with
    | none => deleteLoop p walOk rest s out
    | some pos =>
      match s.records.get? pos with
      | none => deleteLoop p walOk rest s out
      | some r =>
        if r.deleted then deleteLoop p walOk rest s out
        else
          match r.value with
          | none => (s, none, some GoErr.nilDeref)
          | some v =>
            if p v then
              match walAppend walOk s [WalEntry.del id] with
              | (_, some e) => (s, none, some e)
              | (s1, none) =>
                let s2 := { s1 with
                  records := s1.records.set pos ⟨r.value, true⟩,
                  index := removeKey s1.index id,
                  dirty := true }
                deleteLoop p walOk rest s2 (out ++ [v])
            else deleteLoop p walOk rest s out

/-- `Delete` (store.go lines 448-466): iterate the id map (order from the
oracle) and tombstone every non-tombstoned record whose body matches. -/
def Delete (cfg : Cfg ID T) (walOk : Bool) (p : T → Bool) (s : State ID T) :
    State ID T × Option (List T) × Option GoErr :=
  deleteLoop p walOk (cfg.piOrder s.index) s []

/-- One WAL replay step (`replayWAL`, lines 635-640): a Put entry performs
`addOrUpdate` with the logged value, a Delete entry performs
`deleteByID`.  The checker chain is not consulted. -/
def replayOne (s : State ID T) (op : WalEntry ID T) : State ID T :=
  match op with
  | WalEntry.put id v => addOrUpdate s id v
  | WalEntry.del id => deleteByID s id

/-- The replay loop of `replayWAL`: fold `replayOne` over the decoded WAL
entries. -/
def replayLoop (entries : List (WalEntry ID T)) (s : State ID T) : State ID T :=
  entries.foldl replayOne s

/-- `replayWAL` (store_test.go lines 621-645): replay every WAL entry,
truncate the WAL file, then run one residency pass (its error is
discarded by the caller). -/
def replayWAL (cfg : Cfg ID T) (overflowOk : Bool)
    (entries : List (WalEntry ID T)) (s : State ID T) : State ID T :=
  let s1 := replayLoop entries s
  let s2 := { s1 with wal := [] }
  (handleResidency cfg overflowOk s2).1

/-- The in-memory state right after `Open` on a fresh directory: empty
table, and `hasOfflineData` set when a residency predicate is configured
(`handleDataFile` creates `data.ndjson` in that case, so the later
`os.Stat` check succeeds). -/
def openInit (cfg : Cfg ID T) : State ID T :=
  { records := [], index := [], dirty := false, onlineCount := 0,
    wal := [], overflow := [], hasOfflineData := cfg.residencyFn.isSome }

/-- A mutation, for reasoning about arbitrary operation sequences. -/
inductive Op (T : Type) where
  | put (v : T)
  | putAll (vs : List T)

/-- Run one mutation with all disk appends succeeding. -/
def execOp (cfg : Cfg ID T) (s : State ID T) : Op T → State ID T
  | Op.put v => (Put cfg true true s v).2
  | Op.putAll vs => (PutAll cfg true true s vs).2

/-- Run a sequence of mutations with all disk appends succeeding. -/
def execOps (cfg : Cfg ID T) (ops : List (Op T)) (s : State ID T) : State ID T :=
  ops.foldl (execOp cfg) s

/-- The number of records in the Resident observable state (body present,
not tombstoned) — what §3 of the specification calls `online_count`. -/
def residentCount (s : State ID T) : Nat :=
  s.records.countP (fun r => r.value.isSome && !r.deleted)

/-- The record currently reachable from the id map for `id`, through the
position stored in the index. -/
def recordOf (s : State ID T) (id : ID) : Option (Rec T) :=
  match lookupIdx s.index id with
  | none => none
  | some p => s.records.get? p

/-- Every index entry points inside the record table (true of every
reachable store: in Go the map holds live record pointers). -/
def IndexValid (s : State ID T) : Prop :=
  ∀ kv ∈ s.index, kv.2 < s.records.length

/-- Structural invariants of states reachable by `Put`/`PutAll` alone:
the counter never exceeds the number of Resident records, the index
positions are exactly `0, …, records.length - 1` in insertion order, and
the index keys are pairwise distinct. -/
def StructInv (s : State ID T) : Prop :=
  s.onlineCount ≤ (residentCount s : Int) ∧
  s.index.map Prod.snd = List.range s.records.length ∧
  (s.index.map Prod.fst).Nodup

/-- The claim-side description of `Get`'s online half: the bodies of the
non-tombstoned, Resident records, in record-table insertion order,
restricted to the predicate. -/
def onlineMatches (p : T → Bool) (s : State ID T) : List T :=
  ((s.records.filter (fun r => !r.deleted)).filterMap Rec.value).filter p

/-- The claim-side description of `Get`'s offline half: the decoded
overflow bodies in overflow-file append order, restricted to the
predicate. -/
def overflowMatches (p : T → Bool) (s : State ID T) : List T :=
  s.overflow.filter p

/-- `var LOW int = -1` (options.go): the sentinel installed when the
`MaxOnlineRecords` option is absent. -/
def LOW : Int := -1

/-- `Options` (options.go): the user-facing configuration record.  The
snapshot interval is counted in seconds here. -/
structure Options (ID T : Type) where
  dir : String
  snapshotInterval : Int
  idFunc : Option (T → ID × Option GoErr)
  checkers : Option (List (Option T → T → Option T × Option GoErr))
  residencyFunc : Option (T → Bool)
  maxOnlineRecords : Option Int

/-- `Options.Validate` (options.go): apply the defaults in place — empty
dir becomes ".", zero interval becomes 30 s, nil checkers become the
empty chain, a nil `MaxOnlineRecords` becomes `&LOW` — then fail with
*misconfigured* when no `IDFunc` was supplied. -/
def Options.Validate (o : Options ID T) : Options ID T × Option GoErr :=
  let o := if o.dir = "" then { o with dir := "." } else o
  let o := if o.snapshotInterval = 0 then { o with snapshotInterval := 30 } else o
  let o := match o.checkers with
           | none => { o with checkers := some [] }
           | some _ => o
  let o := match o.maxOnlineRecords with
           | none => { o with maxOnlineRecords := some LOW }
           | some _ => o
  match o.idFunc with
  | none => (o, some GoErr.misconfigured)
  | some _ => (o, none)

/-! ### Concrete instantiations used by the individual claims
All with `ID = Nat`, `T = Nat`, the identifier function returning the
body itself, and the canonical (insertion-order) realization of Go's
unspecified map iteration order. -/

/-- Store used for the C1 witness: mixed resident, demoted and
tombstoned records plus overflow data. -/
def sC1 : State Nat Nat :=
  { records := [⟨some 1, false⟩, ⟨none, false⟩, ⟨some 2, true⟩, ⟨some 3, false⟩],
    index := [(1, 0), (3, 3)], dirty := true, onlineCount := 2,
    wal := [], overflow := [4, 1], hasOfflineData := true }

/-- C1 witness predicate: keep the odd bodies. -/
def pC1 : Nat → Bool := fun v => v % 2 = 1

/-- Configuration for C2: a single checker replacing the proposed body
`new` with `new + 100`. -/
def cfgC2 : Cfg Nat Nat :=
  { idFunc := fun v => (v, none),
    checkers := [fun _ new => (some (new + 100), none)],
    residencyFn := none, maxOnline := LOW,
    zeroID := 0, piOrder := canonicalOrder }

/-- Configuration for C3: residency predicate keeping nothing, no cap
(`-1`, the always-run sentinel). -/
def cfgC3 : Cfg Nat Nat :=
  { idFunc := fun v => (v, none), checkers := [],
    residencyFn := some (fun _ => false), maxOnline := -1,
    zeroID := 0, piOrder := canonicalOrder }

/-- Store for C3: a single Resident record with body 5. -/
def sC3 : State Nat Nat := addOrUpdate (openInit cfgC3) 5 5

/-- Capped configuration for the C3 witness: `max_in_memory = 1`,
residency predicate keeping nothing. -/
def cfgC3cap : Cfg Nat Nat :=
  { idFunc := fun v => (v, none), checkers := [],
    residencyFn := some (fun _ => false), maxOnline := 1,
    zeroID := 0, piOrder := canonicalOrder }

/-- Store for the capped C3 witness: two Resident records, so the pass
enters (index size 2 > cap 1) and its early break fires after the first
demotion. -/
def sC3cap : State Nat Nat :=
  addOrUpdate (addOrUpdate (openInit cfgC3cap) 5 5) 6 6

/-- Configuration for C4: cap `max_in_memory = 0`, residency predicate
keeping nothing. -/
def cfgC4 : Cfg Nat Nat :=
  { idFunc := fun v => (v, none), checkers := [],
    residencyFn := some (fun _ => false), maxOnline := 0,
    zeroID := 0, piOrder := canonicalOrder }

/-- C4 mutation sequence: a Put that gets demoted, then a PutAll that
revives id 1 (without re-incrementing the counter) and adds ids 2, 3. -/
def opsC4 : List (Op Nat) := [Op.put 1, Op.putAll [1, 2, 3]]

/-- Final state of the C4 sequence. -/
def sC4 : State Nat Nat := execOps cfgC4 opsC4 (openInit cfgC4)

/-- Options for C5: a residency predicate is configured but
`MaxOnlineRecords` is absent. -/
def optsC5 : Options Nat Nat :=
  { dir := "data", snapshotInterval := 0,
    idFunc := some (fun v => (v, none)), checkers := some [],
    residencyFunc := some (fun _ => false), maxOnlineRecords := none }

/-- The store configuration `Open` builds from the validated C5 options
(`maxOnline: *opts.MaxOnlineRecords`, `residencyFn: opts.ResidencyFunc`). -/
def cfgC5 : Cfg Nat Nat :=
  { idFunc := fun v => (v, none), checkers := [],
    residencyFn := (Options.Validate optsC5).1.residencyFunc,
    maxOnline := ((Options.Validate optsC5).1.maxOnlineRecords).getD 0,
    zeroID := 0, piOrder := canonicalOrder }

/-- Configuration for C6: cap `max_in_memory = 1`, residency predicate
keeping nothing. -/
def cfgC6 : Cfg Nat Nat :=
  { idFunc := fun v => (v, none), checkers := [],
    residencyFn := some (fun _ => false), maxOnline := 1,
    zeroID := 0, piOrder := canonicalOrder }

/-- C6: state after Put 1; Put 2 (id 1 demoted, id 2 resident, counter 1). -/
def sC6 : State Nat Nat := execOps cfgC6 [Op.put 1, Op.put 2] (openInit cfgC6)

/-- C6: the state at which the third mutation's residency pass is
entered — `addOrUpdate` of the in-place update of id 2 has been applied
and `onlineCount = 1` does not exceed the cap. -/
def midC6 : State Nat Nat := addOrUpdate sC6 2 2

/-- Configuration for C8. -/
def cfgC8 : Cfg Nat Nat :=
  { idFunc := fun v => (v, none), checkers := [],
    residencyFn := some (fun _ => false), maxOnline := -1,
    zeroID := 0, piOrder := canonicalOrder }

/-- Store for C8: one Demoted record (body absent, not tombstoned) still
present in the id map, its body in the overflow file. -/
def sC8 : State Nat Nat :=
  { records := [⟨none, false⟩], index := [(1, 0)], dirty := false,
    onlineCount := 0, wal := [], overflow := [1], hasOfflineData := true }

/-- Configuration for scenario D (C9): `keep(u) = u.id % 2 == 1`,
`max_in_memory = -1`. -/
def cfgC9 : Cfg Nat Nat :=
  { idFunc := fun v => (v, none), checkers := [],
    residencyFn := some (fun v => v % 2 = 1), maxOnline := -1,
    zeroID := 0, piOrder := canonicalOrder }

/-- C9: Put bodies with ids 1..20 in that order. -/
def sC9 : State Nat Nat :=
  execOps cfgC9 ((List.range 20).map (fun i => Op.put (i + 1))) (openInit cfgC9)

/-- Configuration for the C10 witness. -/
def cfgC10 : Cfg Nat Nat :=
  { idFunc := fun v => (v, none), checkers := [],
    residencyFn := none, maxOnline := LOW,
    zeroID := 0, piOrder := canonicalOrder }

/-- Configuration for the C7 witness: a checker chain rejecting every
write. -/
def cfgC7 : Cfg Nat Nat :=
  { idFunc := fun v => (v, none),
    checkers := [fun _ _ => (none, some GoErr.checkErr)],
    residencyFn := none, maxOnline := LOW,
    zeroID := 0, piOrder := canonicalOrder }

/-- Configuration for the C5 witness: no residency predicate at all. -/
def cfgC5n : Cfg Nat Nat :=
  { idFunc := fun v => (v, none), checkers := [],
    residencyFn := none, maxOnline := LOW,
    zeroID := 0, piOrder := canonicalOrder }

/-! ### Basic lemmas -/

theorem canonicalOrder_covers {A : Type} :
    Covers (@canonicalOrder A) := by
  intro ix kv h
  exact List.mem_map_of_mem Prod.fst h

theorem lookupIdx_mem {ix : List (ID × Nat)} {id : ID} {p : Nat}
    (h : lookupIdx ix id = some p) : (id, p) ∈ ix := by
  induction ix with
  | nil => simp [lookupIdx] at h
  | cons kv rest ih =>
    obtain ⟨k, q⟩ := kv
    by_cases hk : k = id
    · subst hk
      simp [lookupIdx] at h
      subst h
      exact List.mem_cons_self _ _
    · rw [lookupIdx, if_neg hk] at h
      exact List.mem_cons_of_mem _ (ih h)

theorem lookupIdx_eq_none_iff {ix : List (ID × Nat)} {id : ID} :
    lookupIdx ix id = none ↔ id ∉ ix.map Prod.fst := by
  induction ix with
  | nil => simp [lookupIdx]
  | cons kv rest ih =>
    obtain ⟨k, q⟩ := kv
    by_cases hk : k = id
    · subst hk
      simp [lookupIdx]
    · rw [lookupIdx, if_neg hk]
      simp only [List.map_cons, List.mem_cons, ih]
      constructor
      · intro h hmem
        rcases hmem with h1 | h1
        · exact hk h1.symm
        · exact h h1
      · intro h
        exact fun h1 => h (Or.inr h1)

theorem lookupIdx_append_of_some {ix : List (ID × Nat)} {l : List (ID × Nat)}
    {id : ID} {p : Nat} (h : lookupIdx ix id = some p) :
    lookupIdx (ix ++ l) id = some p := by
  induction ix with
  | nil => simp [lookupIdx] at h
  | cons kv rest ih =>
    obtain ⟨k, q⟩ := kv
    by_cases hk : k = id
    · subst hk
      simp [lookupIdx] at h ⊢
      exact h
    · rw [lookupIdx, if_neg hk] at h
      rw [List.cons_append, lookupIdx, if_neg hk]
      exact ih h

theorem lookupIdx_append_of_none {ix : List (ID × Nat)} {id : ID} {p : Nat}
    (h : lookupIdx ix id = none) :
    lookupIdx (ix ++ [(id, p)]) id = some p := by
  induction ix with
  | nil => simp [lookupIdx]
  | cons kv rest ih =>
    obtain ⟨k, q⟩ := kv
    by_cases hk : k = id
    · subst hk
      simp [lookupIdx] at h
    · rw [lookupIdx, if_neg hk] at h
      rw [List.cons_append, lookupIdx, if_neg hk]
      exact ih h

theorem lookupIdx_of_mem_of_nodup {ix : List (ID × Nat)} {id : ID} {p : Nat}
    (hnd : (ix.map Prod.fst).Nodup) (hmem : (id, p) ∈ ix) :
    lookupIdx ix id = some p := by
  induction ix with
  | nil => simp at hmem
  | cons kv rest ih =>
    obtain ⟨k, q⟩ := kv
    simp only [List.map_cons, List.nodup_cons] at hnd
    rcases List.mem_cons.mp hmem with h1 | h1
    · rw [Prod.mk.injEq] at h1
      obtain ⟨h2, h3⟩ := h1
      subst h2
      subst h3
      rw [lookupIdx, if_pos rfl]
    · by_cases hk : k = id
      · subst hk
        exact absurd (List.mem_map_of_mem Prod.fst h1) hnd.1
      · rw [lookupIdx, if_neg hk]
        exact ih hnd.2 h1

theorem lookupIdx_removeKey_self {ix : List (ID × Nat)} {id : ID} :
    lookupIdx (removeKey ix id) id = none := by
  rw [lookupIdx_eq_none_iff]
  intro hmem
  obtain ⟨kv, hkv, hfst⟩ := List.mem_map.mp hmem
  have := List.of_mem_filter hkv
  simp only [decide_eq_true_eq] at this
  exact this hfst

theorem snd_inj_of_nodup {ix : List (ID × Nat)}
    (hnd : (ix.map Prod.snd).Nodup) {a b : ID × Nat}
    (ha : a ∈ ix) (hb : b ∈ ix) (hab : a.2 = b.2) : a = b :=
  List.inj_on_of_nodup_map hnd ha hb hab

/-- The batched overflow scan is the plain predicate filter of the
pending batch followed by the remaining lines. -/
theorem scanOffline_eq_filter (p : T → Bool) :
    ∀ (l batch : List T), scanOffline p batch l = (batch ++ l).filter p := by
  intro l
  induction l with
  | nil => intro batch; simp [scanOffline]
  | cons v rest ih =>
    intro batch
    rw [scanOffline]
    by_cases h : (batch ++ [v]).length = 1000
    · rw [if_pos h, ih]
      simp only [List.filter_append, List.filter_cons, List.nil_append,
        List.append_assoc]
      by_cases hp : p v = true <;> simp [hp]
    · rw [if_neg h, ih]
      simp [List.filter_append, List.filter_cons]

/-- The online scan loop of `Get` computes exactly the claim-side
description: non-tombstoned Resident bodies, in order, filtered. -/
theorem getOnline_eq_onlineMatches (p : T → Bool) (s : State ID T) :
    getOnline p s.records = onlineMatches p s := by
  rw [onlineMatches]
  induction s.records with
  | nil => simp [getOnline]
  | cons r rest ih =>
    rw [getOnline]
    by_cases hd : r.deleted
    · simp [hd, ih]
    · cases hv : r.value with
      | none => simp [hd, hv, ih, List.filter_cons, List.filterMap_cons]
      | some v =>
        by_cases hp : p v
        · simp [hd, hv, hp, ih, List.filter_cons, List.filterMap_cons]
        · simp [hd, hv, hp, ih, List.filter_cons, List.filterMap_cons]

/-- Setting one element can lower `countP` by at most one. -/
theorem countP_le_set_succ (q : Rec T → Bool) (l : List (Rec T)) (i : Nat)
    (a : Rec T) : l.countP q ≤ (l.set i a).countP q + 1 := by
  by_cases hi : i < l.length
  · rw [List.countP_set q l i a hi]
    by_cases h1 : q l[i] = true <;> by_cases h2 : q a = true <;>
      simp [h1, h2] <;> omega
  · rw [List.set_eq_of_length_le (Nat.le_of_not_lt hi)]
    omega

/-- Setting an element that does not satisfy the count predicate cannot
raise `countP`. -/
theorem countP_set_le (q : Rec T → Bool) (l : List (Rec T)) (i : Nat)
    (a : Rec T) (ha : q a = false) : (l.set i a).countP q ≤ l.countP q := by
  by_cases hi : i < l.length
  · rw [List.countP_set q l i a hi, ha]
    by_cases h1 : q l[i] = true <;> simp [h1] <;> omega
  · rw [List.set_eq_of_length_le (Nat.le_of_not_lt hi)]

/-! ### Facts about the residency loop -/

/-- Bundled facts about one run of the demotion loop: the index, the WAL,
the overflow file, the flags and the table length are untouched; records
whose body is already absent stay exactly as they are; the counter stays
below the Resident-record count; a `break` exit implies a configured cap
that the counter has reached; the dead `len(offline) == 0` early return
never fires. -/
theorem residencyLoop_facts (keep : T → Bool) (m : Int) :
    ∀ (ids : List ID) (s : State ID T) (off : List T),
      (residencyLoop keep m ids s off).1.index = s.index ∧
      (residencyLoop keep m ids s off).1.wal = s.wal ∧
      (residencyLoop keep m ids s off).1.overflow = s.overflow ∧
      (residencyLoop keep m ids s off).1.dirty = s.dirty ∧
      (residencyLoop keep m ids s off).1.hasOfflineData = s.hasOfflineData ∧
      (residencyLoop keep m ids s off).1.records.length = s.records.length ∧
      (∀ pos d, s.records.get? pos = some ⟨none, d⟩ →
        (residencyLoop keep m ids s off).1.records.get? pos = some ⟨none, d⟩) ∧
      (s.onlineCount ≤ (residentCount s : Int) →
        (residencyLoop keep m ids s off).1.onlineCount ≤
          (residentCount (residencyLoop keep m ids s off).1 : Int)) ∧
      ((residencyLoop keep m ids s off).2.2 = LoopExit.broke →
        0 ≤ m ∧ (residencyLoop keep m ids s off).1.onlineCount ≤ m) ∧
      (residencyLoop keep m ids s off).2.2 ≠ LoopExit.earlyNil := by
  intro ids
  induction ids with
  | nil =>
    intro s off
    refine ⟨rfl, rfl, rfl, rfl, rfl, rfl, fun pos d h => h, fun h => h, ?_, ?_⟩
    · intro h
      simp [residencyLoop] at h
    · intro h
      simp [residencyLoop] at h
  | cons id rest ih =>
    intro s off
    rw [residencyLoop]
    cases hl : lookupIdx s.index id with
    | none => exact ih s off
    | some p =>
      try dsimp only
      cases hg : s.records.get? p with
      | none => exact ih s off
      | some r =>
        try dsimp only
        cases hv : r.value with
        | none => exact ih s off
        | some v =>
          try dsimp only
          by_cases hk : keep v = true
          · rw [if_pos hk]
            exact ih s off
          · rw [if_neg hk]
            try dsimp only
            have hpne : ∀ pos d, s.records.get? pos = some ⟨none, d⟩ → p ≠ pos := by
              intro pos d h he
              subst he
              rw [hg] at h
              injection h with h'
              rw [h'] at hv
              simp at hv
            have hcnt : s.records.countP (fun r => r.value.isSome && !r.deleted) ≤
                (s.records.set p ⟨none, r.deleted⟩).countP
                  (fun r => r.value.isSome && !r.deleted) + 1 :=
              countP_le_set_succ _ _ _ _
            by_cases hbr : m ≥ 0 ∧ s.onlineCount - 1 ≤ m
            · rw [if_pos hbr]
              refine ⟨rfl, rfl, rfl, rfl, rfl, ?_, ?_, ?_, ?_, ?_⟩
              · simp [List.length_set]
              · intro pos d h
                try dsimp only
                rw [List.get?_set_ne _ _ (hpne pos d h)]
                exact h
              · intro hcr
                simp only [residentCount] at hcr ⊢
                try dsimp only
                omega
              · intro _
                exact ⟨hbr.1, hbr.2⟩
              · intro h
                simp at h
            · rw [if_neg hbr]
              have hne0 : ¬((off ++ [v]).length = 0) := by
                simp [List.length_append]
              rw [if_neg hne0]
              obtain ⟨i1, i2, i3, i4, i5, i6, i7, i8, i9, i10⟩ :=
                ih { s with records := s.records.set p ⟨none, r.deleted⟩,
                            onlineCount := s.onlineCount - 1 } (off ++ [v])
              refine ⟨i1, i2, i3, i4, i5, ?_, ?_, ?_, i9, i10⟩
              · rw [i6]
                simp [List.length_set]
              · intro pos d h
                apply i7
                try dsimp only
                rw [List.get?_set_ne _ _ (hpne pos d h)]
                exact h
              · intro hcr
                apply i8
                simp only [residentCount] at hcr ⊢
                try dsimp only
                omega

/-- With no configured cap (`maxOnline < 0`) the loop can neither break
nor take the dead early return: it always runs to completion. -/
theorem residencyLoop_exit_neg (keep : T → Bool) (m : Int) (hm : m < 0)
    (ids : List ID) (s : State ID T) (off : List T) :
    (residencyLoop keep m ids s off).2.2 = LoopExit.finished := by
  cases hx : (residencyLoop keep m ids s off).2.2 with
  | finished => rfl
  | broke =>
    obtain ⟨-, -, -, -, -, -, -, -, i9, -⟩ := residencyLoop_facts keep m ids s off
    exact absurd (i9 hx).1 (by omega)
  | earlyNil =>
    obtain ⟨-, -, -, -, -, -, -, -, -, i10⟩ := residencyLoop_facts keep m ids s off
    exact absurd hx i10

/-- If the loop ran to completion (no break), then every visited id whose
record was Resident with a body the predicate rejects has been demoted:
its body is absent in the final state, the tombstone flag untouched. -/
theorem residencyLoop_finished_demotes (keep : T → Bool) (m : Int) :
    ∀ (ids : List ID) (s : State ID T) (off : List T),
      (residencyLoop keep m ids s off).2.2 = LoopExit.finished →
      ∀ id ∈ ids, ∀ pos r v,
        lookupIdx s.index id = some pos →
        s.records.get? pos = some r →
        r.value = some v → keep v = false →
        (residencyLoop keep m ids s off).1.records.get? pos =
          some ⟨none, r.deleted⟩ := by
  intro ids
  induction ids with
  | nil =>
    intro s off _ id hid
    simp at hid
  | cons id0 rest ih =>
    intro s off
    rw [residencyLoop]
    cases hl : lookupIdx s.index id0 with
    | none =>
      intro hfin id hid pos r v hlook hg hv hk
      rcases List.mem_cons.mp hid with h0 | h0
      · subst h0
        rw [hl] at hlook
        cases hlook
      · exact ih s off hfin id h0 pos r v hlook hg hv hk
    | some p =>
      try dsimp only
      cases hg0 : s.records.get? p with
      | none =>
        intro hfin id hid pos r v hlook hg hv hk
        rcases List.mem_cons.mp hid with h0 | h0
        · subst h0
          rw [hl] at hlook
          injection hlook with hpp
          subst hpp
          rw [hg0] at hg
          cases hg
        · exact ih s off hfin id h0 pos r v hlook hg hv hk
      | some r0 =>
        try dsimp only
        cases hv0 : r0.value with
        | none =>
          intro hfin id hid pos r v hlook hg hv hk
          rcases List.mem_cons.mp hid with h0 | h0
          · subst h0
            rw [hl] at hlook
            injection hlook with hpp
            subst hpp
            rw [hg0] at hg
            injection hg with hr
            subst hr
            rw [hv0] at hv
            cases hv
          · exact ih s off hfin id h0 pos r v hlook hg hv hk
        | some v0 =>
          try dsimp only
          by_cases hk0 : keep v0 = true
          · rw [if_pos hk0]
            intro hfin id hid pos r v hlook hg hv hk
            rcases List.mem_cons.mp hid with h0 | h0
            · subst h0
              rw [hl] at hlook
              injection hlook with hpp
              subst hpp
              rw [hg0] at hg
              injection hg with hr
              subst hr
              rw [hv0] at hv
              injection hv with hvv
              subst hvv
              rw [hk0] at hk
              cases hk
            · exact ih s off hfin id h0 pos r v hlook hg hv hk
          · rw [if_neg hk0]
            try dsimp only
            have hplen : p < s.records.length := by
              rcases List.get?_eq_some.mp hg0 with ⟨h1, -⟩
              exact h1
            by_cases hbr : m ≥ 0 ∧ s.onlineCount - 1 ≤ m
            · rw [if_pos hbr]
              intro hfin
              simp at hfin
            · rw [if_neg hbr]
              have hne0 : ¬((off ++ [v0]).length = 0) := by
                simp [List.length_append]
              rw [if_neg hne0]
              intro hfin id hid pos r v hlook hg hv hk
              by_cases hpp : pos = p
              · subst hpp
                rw [hg0] at hg
                injection hg with hr
                subst hr
                obtain ⟨-, -, -, -, -, -, i7, -, -, -⟩ :=
                  residencyLoop_facts keep m rest
                    { s with records := s.records.set pos ⟨none, r0.deleted⟩,
                             onlineCount := s.onlineCount - 1 } (off ++ [v0])
                apply i7
                try dsimp only
                rw [List.get?_set_eq_of_lt _ hplen]
              · rcases List.mem_cons.mp hid with h0 | h0
                · subst h0
                  rw [hl] at hlook
                  injection hlook with hpp'
                  exact absurd hpp'.symm hpp
                · exact ih
                    { s with records := s.records.set p ⟨none, r0.deleted⟩,
                             onlineCount := s.onlineCount - 1 } (off ++ [v0])
                    hfin id h0 pos r v hlook
                    (by
                      try dsimp only
                      rw [List.get?_set_ne _ _ (Ne.symm hpp)]
                      exact hg) hv hk

/-- Whatever the cap and however the loop exits, every record position is
either untouched or holds a demotion mark: the record was Resident with
a body the predicate rejects, and its body is now absent with the
tombstone flag unchanged. -/
theorem residencyLoop_records_cases (keep : T → Bool) (m : Int) :
    ∀ (ids : List ID) (s : State ID T) (off : List T) (pos : Nat),
      (residencyLoop keep m ids s off).1.records.get? pos =
          s.records.get? pos ∨
        ∃ r v, s.records.get? pos = some r ∧ r.value = some v ∧
          keep v = false ∧
          (residencyLoop keep m ids s off).1.records.get? pos =
            some ⟨none, r.deleted⟩ := by
  intro ids
  induction ids with
  | nil =>
    intro s off pos
    exact Or.inl rfl
  | cons id0 rest ih =>
    intro s off pos
    rw [residencyLoop]
    cases hl : lookupIdx s.index id0 with
    | none => exact ih s off pos
    | some p =>
      try dsimp only
      cases hg0 : s.records.get? p with
      | none => exact ih s off pos
      | some r0 =>
        try dsimp only
        cases hv0 : r0.value with
        | none => exact ih s off pos
        | some v0 =>
          try dsimp only
          by_cases hk0 : keep v0 = true
          · rw [if_pos hk0]
            exact ih s off pos
          · rw [if_neg hk0]
            try dsimp only
            have hkf : keep v0 = false := by
              cases hkk : keep v0 with
              | false => rfl
              | true => exact absurd hkk hk0
            have hplen : p < s.records.length := by
              rcases List.get?_eq_some.mp hg0 with ⟨h1, -⟩
              exact h1
            by_cases hbr : m ≥ 0 ∧ s.onlineCount - 1 ≤ m
            · rw [if_pos hbr]
              try dsimp only
              by_cases hpp : pos = p
              · subst hpp
                refine Or.inr ⟨r0, v0, hg0, hv0, hkf, ?_⟩
                rw [List.get?_set_eq_of_lt _ hplen]
              · refine Or.inl ?_
                rw [List.get?_set_ne _ _ (Ne.symm hpp)]
            · rw [if_neg hbr]
              have hne0 : ¬((off ++ [v0]).length = 0) := by
                simp [List.length_append]
              rw [if_neg hne0]
              by_cases hpp : pos = p
              · subst hpp
                have hs1 : ({ s with
                    records := s.records.set pos ⟨none, r0.deleted⟩,
                    onlineCount := s.onlineCount - 1 } :
                      State ID T).records.get? pos =
                    some ⟨none, r0.deleted⟩ := by
                  try dsimp only
                  rw [List.get?_set_eq_of_lt _ hplen]
                rcases ih { s with
                    records := s.records.set pos ⟨none, r0.deleted⟩,
                    onlineCount := s.onlineCount - 1 } (off ++ [v0]) pos
                  with hstay | hchg
                · refine Or.inr ⟨r0, v0, hg0, hv0, hkf, ?_⟩
                  rw [hstay, hs1]
                · obtain ⟨r, v, hr, hv, -, -⟩ := hchg
                  rw [hs1] at hr
                  injection hr with hr'
                  rw [← hr'] at hv
                  simp at hv
              · rcases ih { s with
                    records := s.records.set p ⟨none, r0.deleted⟩,
                    onlineCount := s.onlineCount - 1 } (off ++ [v0]) pos
                  with hstay | hchg
                · refine Or.inl ?_
                  rw [hstay]
                  try dsimp only
                  rw [List.get?_set_ne _ _ (Ne.symm hpp)]
                · obtain ⟨r, v, hr, hv, hk, hfin⟩ := hchg
                  refine Or.inr ⟨r, v, ?_, hv, hk, hfin⟩
                  try dsimp only at hr
                  rw [List.get?_set_ne _ _ (Ne.symm hpp)] at hr
                  exact hr

/-- Setting an element that satisfies the count predicate cannot lower
`countP`. -/
theorem countP_le_set_of_sat (q : Rec T → Bool) (l : List (Rec T)) (i : Nat)
    (a : Rec T) (ha : q a = true) : l.countP q ≤ (l.set i a).countP q := by
  by_cases hi : i < l.length
  · rw [List.countP_set q l i a hi, ha]
    by_cases h1 : q l[i] = true <;> simp [h1] <;> omega
  · rw [List.set_eq_of_length_le (Nat.le_of_not_lt hi)]

/-- `addOrUpdate` keeps the structural invariants: the counter still does
not exceed the Resident count, the index still enumerates exactly the
table positions in order, and the keys stay distinct. -/
theorem addOrUpdate_StructInv {s : State ID T} (h : StructInv s) (id : ID)
    (v : T) : StructInv (addOrUpdate s id v) := by
  obtain ⟨h1, h2, h3⟩ := h
  rw [addOrUpdate]
  cases hl : lookupIdx s.index id with
  | some p =>
    try dsimp only
    refine ⟨?_, ?_, ?_⟩
    · have hsat := countP_le_set_of_sat
        (fun r => r.value.isSome && !r.deleted) s.records p ⟨some v, false⟩
        (by simp)
      simp only [residentCount] at h1 ⊢
      try dsimp only
      omega
    · simp only
      rw [List.length_set]
      exact h2
    · exact h3
  | none =>
    try dsimp only
    refine ⟨?_, ?_, ?_⟩
    · simp only [residentCount, List.countP_append] at h1 ⊢
      try dsimp only
      have hone : List.countP (fun r => r.value.isSome && !r.deleted)
          [(⟨some v, false⟩ : Rec T)] = 1 := by simp
      omega
    · simp only
      rw [List.map_append, h2, List.length_append]
      simp [List.range_succ]
    · simp only
      rw [List.map_append, List.nodup_append]
      refine ⟨h3, by simp, ?_⟩
      intro a ha hb
      simp at hb
      subst hb
      exact (lookupIdx_eq_none_iff.mp hl) ha

/-- After a residency pass with a predicate keeping nothing, a
non-negative cap, and an order oracle that enumerates every map key, the
counter does not exceed the cap and the structural invariants still
hold.  (No assumption on the counter before the pass is needed.) -/
theorem handleResidency_cap {cfg : Cfg ID T} {keep : T → Bool}
    (hres : cfg.residencyFn = some keep) (hkeep : ∀ v, keep v = false)
    (hcap : 0 ≤ cfg.maxOnline) (hcov : Covers cfg.piOrder)
    {s : State ID T} (h : StructInv s) :
    (handleResidency cfg true s).1.onlineCount ≤ cfg.maxOnline ∧
      StructInv (handleResidency cfg true s).1 := by
  obtain ⟨h1, h2, h3⟩ := h
  rw [handleResidency, hres]
  try dsimp only
  by_cases hskip : cfg.maxOnline ≥ 0 ∧ (s.index.length : Int) ≤ cfg.maxOnline
  · rw [if_pos hskip]
    try dsimp only
    refine ⟨?_, h1, h2, h3⟩
    have hcnt : residentCount s ≤ s.records.length :=
      List.countP_le_length _
    have hlen : s.records.length = s.index.length := by
      have := congrArg List.length h2
      rw [List.length_map, List.length_range] at this
      omega
    omega
  · rw [if_neg hskip]
    have hgt : cfg.maxOnline < (s.index.length : Int) := by
      rcases not_and_or.mp hskip with hc | hc
      · exact absurd hcap (by omega)
      · omega
    obtain ⟨i1, i2, i3, i4, i5, i6, i7, i8, i9, i10⟩ :=
      residencyLoop_facts keep cfg.maxOnline (cfg.piOrder s.index) s []
    cases hx : (residencyLoop keep cfg.maxOnline (cfg.piOrder s.index) s []).2.2 with
    | earlyNil => exact absurd hx i10
    | broke =>
      rcases hL : residencyLoop keep cfg.maxOnline (cfg.piOrder s.index) s []
        with ⟨sL, offL, exL⟩
      rw [hL] at hx i1 i2 i3 i4 i5 i6 i7 i8 i9
      subst hx
      try dsimp only
      rw [appendOffline, if_pos rfl]
      refine ⟨(i9 rfl).2, i8 h1, ?_, ?_⟩
      · try dsimp only
        rw [i1, i6]
        exact h2
      · try dsimp only
        rw [i1]
        exact h3
    | finished =>
      rcases hL : residencyLoop keep cfg.maxOnline (cfg.piOrder s.index) s []
        with ⟨sL, offL, exL⟩
      rw [hL] at hx i1 i2 i3 i4 i5 i6 i7 i8 i9
      subst hx
      try dsimp only
      rw [appendOffline, if_pos rfl]
      have hall : ∀ r ∈ sL.records, r.value = none := by
        intro r hr
        obtain ⟨pos, hpos⟩ := List.mem_iff_get?.mp hr
        have hlt : pos < s.records.length := by
          have hlt1 : pos < sL.records.length := by
            rcases List.get?_eq_some.mp hpos with ⟨hh, -⟩
            exact hh
          rw [i6] at hlt1
          exact hlt1
        have hrng : pos ∈ s.index.map Prod.snd := by
          rw [h2]
          exact List.mem_range.mpr hlt
        obtain ⟨kv, hkv, hkvp⟩ := List.mem_map.mp hrng
        have hmem' : (kv.1, pos) ∈ s.index := by
          rw [← hkvp, Prod.mk.eta]
          exact hkv
        have hlook : lookupIdx s.index kv.1 = some pos :=
          lookupIdx_of_mem_of_nodup h3 hmem'
        have hid : kv.1 ∈ cfg.piOrder s.index := hcov s.index kv hkv
        cases hg : s.records.get? pos with
        | none =>
          rw [List.get?_eq_none] at hg
          omega
        | some r0 =>
          obtain ⟨rv, rd⟩ := r0
          cases rv with
          | none =>
            have hstab := i7 pos rd hg
            try dsimp only at hstab
            rw [hpos] at hstab
            injection hstab with hr'
            rw [hr']
          | some v0 =>
            have hdem := residencyLoop_finished_demotes keep cfg.maxOnline
              (cfg.piOrder s.index) s [] (by rw [hL]) kv.1 hid pos ⟨some v0, rd⟩
              v0 hlook hg rfl (hkeep v0)
            rw [hL] at hdem
            try dsimp only at hdem
            rw [hpos] at hdem
            injection hdem with hr'
            rw [hr']
      have hzero : residentCount sL = 0 := by
        rw [residentCount]
        rw [List.countP_eq_zero]
        intro r hr
        rw [hall r hr]
        simp
      have hcnt := i8 h1
      try dsimp only at hcnt
      rw [hzero] at hcnt
      refine ⟨?_, ?_, ?_, ?_⟩
      · try dsimp only
        omega
      · try dsimp only
        simp only [residentCount] at hzero ⊢
        try dsimp only
        omega
      · try dsimp only
        rw [i1, i6]
        exact h2
      · try dsimp only
        rw [i1]
        exact h3

/-- Replaying a group of pending WAL Put entries (`addOrUpdate` per
entry) keeps the structural invariants. -/
theorem foldPending_StructInv :
    ∀ (pending : List (WalEntry ID T)) (s : State ID T), StructInv s →
      StructInv (pending.foldl
        (fun st op =>
          match op with
          | WalEntry.put id v => addOrUpdate st id v
          | WalEntry.del _ => st) s) := by
  intro pending
  induction pending with
  | nil =>
    intro s h
    exact h
  | cons op rest ih =>
    intro s h
    rw [List.foldl_cons]
    cases op with
    | put id v => exact ih _ (addOrUpdate_StructInv h id v)
    | del id => exact ih _ h

/-- One `Put` with all disk appends succeeding keeps the structural
invariants and, with a keep-nothing predicate, a non-negative cap and a
covering order oracle, leaves the counter at or below the cap. -/
theorem Put_cap {cfg : Cfg ID T} {keep : T → Bool}
    (hres : cfg.residencyFn = some keep) (hkeep : ∀ v, keep v = false)
    (hcap : 0 ≤ cfg.maxOnline) (hcov : Covers cfg.piOrder)
    {s : State ID T} (h : StructInv s) (hn : s.onlineCount ≤ cfg.maxOnline)
    (v : T) :
    StructInv (Put cfg true true s v).2 ∧
      (Put cfg true true s v).2.onlineCount ≤ cfg.maxOnline := by
  rw [Put]
  cases hid : cfg.idFunc v with
  | mk id e =>
    cases e with
    | some e0 => exact ⟨h, hn⟩
    | none =>
      try dsimp only
      cases hchk : runCheckers cfg.checkers (currentOf s id) v with
      | mk v2 e2 =>
        cases e2 with
        | some e3 => exact ⟨h, hn⟩
        | none =>
          try dsimp only
          simp only [walAppend, if_true]
          try dsimp only
          have h1 : StructInv (addOrUpdate
              { s with wal := s.wal ++ [WalEntry.put id v2] } id v2) :=
            addOrUpdate_StructInv
              (show StructInv { s with wal := s.wal ++ [WalEntry.put id v2] }
                from h) id v2
          have h2 := handleResidency_cap hres hkeep hcap hcov h1
          exact ⟨h2.2, h2.1⟩

/-- One `PutAll` with all disk appends succeeding keeps the structural
invariants and, with a keep-nothing predicate, a non-negative cap and a
covering order oracle, leaves the counter at or below the cap. -/
theorem PutAll_cap {cfg : Cfg ID T} {keep : T → Bool}
    (hres : cfg.residencyFn = some keep) (hkeep : ∀ v, keep v = false)
    (hcap : 0 ≤ cfg.maxOnline) (hcov : Covers cfg.piOrder)
    {s : State ID T} (h : StructInv s) (hn : s.onlineCount ≤ cfg.maxOnline)
    (values : List T) :
    StructInv (PutAll cfg true true s values).2 ∧
      (PutAll cfg true true s values).2.onlineCount ≤ cfg.maxOnline := by
  rw [PutAll]
  cases hph : putAllPhase1 cfg s values [] [] with
  | mk pi e =>
    cases e with
    | some e0 =>
      cases e0 with
      | mk ids0 e1 => exact ⟨h, hn⟩
    | none =>
      cases pi with
      | mk pending ids =>
        try dsimp only
        simp only [walAppend, if_true]
        try dsimp only
        have h1 : StructInv (pending.foldl
            (fun st op =>
              match op with
              | WalEntry.put id v => addOrUpdate st id v
              | WalEntry.del _ => st)
            { s with wal := s.wal ++ pending }) :=
          foldPending_StructInv pending _
            (show StructInv { s with wal := s.wal ++ pending } from h)
        have h2 := handleResidency_cap hres hkeep hcap hcov h1
        exact ⟨h2.2, h2.1⟩

/-- Any sequence of `Put`/`PutAll` mutations keeps the structural
invariants and the counter at or below a configured non-negative cap
when the residency predicate keeps nothing. -/
theorem execOps_cap {cfg : Cfg ID T} {keep : T → Bool}
    (hres : cfg.residencyFn = some keep) (hkeep : ∀ v, keep v = false)
    (hcap : 0 ≤ cfg.maxOnline) (hcov : Covers cfg.piOrder) :
    ∀ (ops : List (Op T)) (s : State ID T),
      StructInv s → s.onlineCount ≤ cfg.maxOnline →
      StructInv (execOps cfg ops s) ∧
        (execOps cfg ops s).onlineCount ≤ cfg.maxOnline := by
  intro ops
  induction ops with
  | nil =>
    intro s h hn
    exact ⟨h, hn⟩
  | cons op rest ih =>
    intro s h hn
    rw [execOps, List.foldl_cons]
    cases op with
    | put v =>
      obtain ⟨h', hn'⟩ := Put_cap hres hkeep hcap hcov h hn v
      exact ih _ h' hn'
    | putAll vs =>
      obtain ⟨h', hn'⟩ := PutAll_cap hres hkeep hcap hcov h hn vs
      exact ih _ h' hn'

/-! ### Facts about `addOrUpdate`, `deleteByID` and WAL replay -/

theorem IndexValid_addOrUpdate {s : State ID T} (h : IndexValid s) (id : ID)
    (v : T) : IndexValid (addOrUpdate s id v) := by
  rw [addOrUpdate]
  cases hl : lookupIdx s.index id with
  | some p =>
    intro kv hkv
    have := h kv hkv
    simpa [List.length_set] using this
  | none =>
    intro kv hkv
    try dsimp only at hkv ⊢
    rw [List.length_append]
    rcases List.mem_append.mp hkv with h1 | h1
    · have := h kv h1
      simp only [List.length_singleton]
      omega
    · simp at h1
      rw [h1]
      simp

theorem IndexValid_deleteByID {s : State ID T} (h : IndexValid s) (id : ID) :
    IndexValid (deleteByID s id) := by
  rw [deleteByID]
  cases hl : lookupIdx s.index id with
  | none => exact h
  | some p =>
    try dsimp only
    cases hg : s.records.get? p with
    | none => exact h
    | some r =>
      try dsimp only
      intro kv hkv
      have := h kv (List.mem_of_mem_filter hkv)
      simpa [List.length_set] using this

theorem replayLoop_IndexValid (entries : List (WalEntry ID T)) :
    ∀ s : State ID T, IndexValid s → IndexValid (replayLoop entries s) := by
  induction entries with
  | nil =>
    intro s h
    exact h
  | cons op rest ih =>
    intro s h
    rw [replayLoop, List.foldl_cons]
    cases op with
    | put id v => exact ih _ (IndexValid_addOrUpdate h id v)
    | del id => exact ih _ (IndexValid_deleteByID h id)

/-- After `addOrUpdate`, the record reachable for the id carries exactly
the given body, with the tombstone flag cleared. -/
theorem addOrUpdate_recordOf {s : State ID T} (h : IndexValid s) (id : ID)
    (v : T) : recordOf (addOrUpdate s id v) id = some ⟨some v, false⟩ := by
  cases hl : lookupIdx s.index id with
  | some p =>
    have hp : p < s.records.length := h (id, p) (lookupIdx_mem hl)
    rw [recordOf, addOrUpdate, hl]
    try dsimp only
    rw [hl]
    try dsimp only
    rw [List.get?_set_eq_of_lt _ hp]
  | none =>
    rw [recordOf, addOrUpdate, hl]
    try dsimp only
    rw [lookupIdx_append_of_none hl]
    try dsimp only
    rw [List.get?_concat_length]

/-- After `deleteByID`, the id is gone from the index. -/
theorem deleteByID_lookup_none {s : State ID T} (h : IndexValid s) (id : ID) :
    lookupIdx (deleteByID s id).index id = none := by
  rw [deleteByID]
  cases hl : lookupIdx s.index id with
  | none => exact hl
  | some p =>
    have hp : p < s.records.length := h (id, p) (lookupIdx_mem hl)
    try dsimp only
    cases hg : s.records.get? p with
    | none =>
      rw [List.get?_eq_none] at hg
      omega
    | some r =>
      try dsimp only
      exact lookupIdx_removeKey_self

/-! ### Mutations never touch the overflow file when no residency
predicate is configured -/

theorem addOrUpdate_overflow (s : State ID T) (id : ID) (v : T) :
    (addOrUpdate s id v).overflow = s.overflow := by
  rw [addOrUpdate]
  cases lookupIdx s.index id <;> rfl

theorem foldPending_overflow :
    ∀ (pending : List (WalEntry ID T)) (s : State ID T),
      (pending.foldl
        (fun st op =>
          match op with
          | WalEntry.put id v => addOrUpdate st id v
          | WalEntry.del _ => st) s).overflow = s.overflow := by
  intro pending
  induction pending with
  | nil =>
    intro s
    rfl
  | cons op rest ih =>
    intro s
    rw [List.foldl_cons]
    cases op with
    | put id v => rw [ih, addOrUpdate_overflow]
    | del id => exact ih s

theorem Put_overflow_of_no_residency {cfg : Cfg ID T}
    (hfn : cfg.residencyFn = none) (wk ofk : Bool) (s : State ID T) (v : T) :
    (Put cfg wk ofk s v).2.overflow = s.overflow := by
  rw [Put]
  cases hid : cfg.idFunc v with
  | mk id e =>
    cases e with
    | some e0 => rfl
    | none =>
      try dsimp only
      cases hchk : runCheckers cfg.checkers (currentOf s id) v with
      | mk v2 e2 =>
        cases e2 with
        | some e3 => rfl
        | none =>
          try dsimp only
          cases wk with
          | false => rfl
          | true =>
            simp only [walAppend, if_true]
            try dsimp only
            rw [handleResidency, hfn]
            try dsimp only
            rw [addOrUpdate_overflow]

theorem PutAll_overflow_of_no_residency {cfg : Cfg ID T}
    (hfn : cfg.residencyFn = none) (wk ofk : Bool) (s : State ID T)
    (vs : List T) : (PutAll cfg wk ofk s vs).2.overflow = s.overflow := by
  rw [PutAll]
  cases hph : putAllPhase1 cfg s vs [] [] with
  | mk pi e =>
    cases e with
    | some e0 =>
      cases e0 with
      | mk ids0 e1 => rfl
    | none =>
      cases pi with
      | mk pending ids =>
        try dsimp only
        cases wk with
        | false => rfl
        | true =>
          simp only [walAppend, if_true]
          try dsimp only
          rw [handleResidency, hfn]
          try dsimp only
          rw [foldPending_overflow]

/-! ### The claims -/

/-- C1: for every store state (with the offline-data flag set, as it is
whenever overflow data can exist) and every non-nil predicate `p`,
`Get p` returns all matching online (Resident, non-tombstoned) bodies in
record-table insertion order, followed by all matching bodies decoded
from the overflow file in overflow-file (append) order. -/
theorem c1_get_scan_order (s : State ID T) (p : T → Bool)
    (hoff : s.hasOfflineData = true) :
    Get (some p) s = onlineMatches p s ++ overflowMatches p s := by
  rw [Get]
  try dsimp only
  rw [hoff, if_pos rfl, getOnline_eq_onlineMatches, getOfflineMatching,
    scanOffline_eq_filter, List.nil_append, overflowMatches]

/-- C1 witness: a concrete store with a Resident, a Demoted and a
Tombstoned record plus two overflow bodies, scanned with the odd-body
predicate. -/
theorem c1_get_scan_order_witness :
    sC1.hasOfflineData = true ∧
      Get (some pC1) sC1 = onlineMatches pC1 sC1 ++ overflowMatches pC1 sC1 ∧
      Get (some pC1) sC1 = [1, 3, 1] :=
  ⟨rfl, c1_get_scan_order sC1 pC1 rfl, by decide⟩

/-- C2 (code-bug evaluation): `Put` stores the checker chain's output
(5 becomes 105), but `PutAll` discards the replacement returned by
`runCheckers` and both logs and stores the original proposed value 5 —
contradicting the `Checker` contract that a non-nil replacement becomes
the stored body. -/
theorem c2_putall_stores_unchecked_value :
    (Put cfgC2 true true (openInit cfgC2) 5).2.records = [⟨some 105, false⟩] ∧
      (Put cfgC2 true true (openInit cfgC2) 5).2.wal = [WalEntry.put 5 105] ∧
      (PutAll cfgC2 true true (openInit cfgC2) [5]).2.records =
        [⟨some 5, false⟩] ∧
      (PutAll cfgC2 true true (openInit cfgC2) [5]).2.wal =
        [WalEntry.put 5 5] ∧
      (PutAll cfgC2 true true (openInit cfgC2) [5]).1.2 = none := by
  decide

/-- C3 counterexample: with one Resident record and a failing overflow
append, the pass returns the I/O error, yet the record's body has
already been set to absent — refuting the claim that no record selected
for demotion has its body absent when the append error propagates. -/
theorem c3_counterexample :
    sC3.records.get? 0 = some ⟨some 5, false⟩ ∧
      (handleResidency cfgC3 false sC3).2 = some GoErr.ioFail ∧
      (handleResidency cfgC3 false sC3).1.records.get? 0 =
        some ⟨none, false⟩ := by
  decide

/-- C3 (amended): whenever a residency pass is entered (no cap-skip,
whatever the configured cap) and its overflow append fails, the pass
propagates the I/O error but the demotion marks are not rolled back:
every change the pass made to the record table is a Resident body the
predicate rejected that has already been set to absent (flag untouched),
the record table and counter are exactly what a successful append would
have produced, and the overflow file is left unwritten — so in-memory
state records demotions that never reached disk. -/
theorem c3_failed_append_bodies_absent (cfg : Cfg ID T) (keep : T → Bool)
    (hres : cfg.residencyFn = some keep) (s : State ID T)
    (henter : ¬(cfg.maxOnline ≥ 0 ∧
      (s.index.length : Int) ≤ cfg.maxOnline)) :
    (handleResidency cfg false s).2 = some GoErr.ioFail ∧
      (handleResidency cfg false s).1.records =
        (handleResidency cfg true s).1.records ∧
      (handleResidency cfg false s).1.onlineCount =
        (handleResidency cfg true s).1.onlineCount ∧
      (handleResidency cfg false s).1.overflow = s.overflow ∧
      ∀ pos,
        (handleResidency cfg false s).1.records.get? pos =
            s.records.get? pos ∨
          ∃ r v, s.records.get? pos = some r ∧ r.value = some v ∧
            keep v = false ∧
            (handleResidency cfg false s).1.records.get? pos =
              some ⟨none, r.deleted⟩ := by
  rw [handleResidency, hres]
  try dsimp only
  rw [if_neg henter]
  have hcases := residencyLoop_records_cases keep cfg.maxOnline
    (cfg.piOrder s.index) s []
  obtain ⟨-, -, i3, -, -, -, -, -, -, i10⟩ :=
    residencyLoop_facts keep cfg.maxOnline (cfg.piOrder s.index) s []
  rcases hL : residencyLoop keep cfg.maxOnline (cfg.piOrder s.index) s []
    with ⟨sL, offL, exL⟩
  rw [hL] at hcases i3 i10
  try dsimp only at hcases i3 i10
  cases exL with
  | earlyNil => exact absurd rfl i10
  | finished =>
    try dsimp only
    simp only [appendOffline]
    refine ⟨rfl, ?_, ?_, i3, hcases⟩
    · rw [handleResidency, hres]
      try dsimp only
      rw [if_neg henter, hL]
      try dsimp only
      simp only [appendOffline]
      try rw [if_pos rfl]
      try rfl
    · rw [handleResidency, hres]
      try dsimp only
      rw [if_neg henter, hL]
      try dsimp only
      simp only [appendOffline]
      try rw [if_pos rfl]
      try rfl
  | broke =>
    try dsimp only
    simp only [appendOffline]
    refine ⟨rfl, ?_, ?_, i3, hcases⟩
    · rw [handleResidency, hres]
      try dsimp only
      rw [if_neg henter, hL]
      try dsimp only
      simp only [appendOffline]
      try rw [if_pos rfl]
      try rfl
    · rw [handleResidency, hres]
      try dsimp only
      rw [if_neg henter, hL]
      try dsimp only
      simp only [appendOffline]
      try rw [if_pos rfl]
      try rfl

/-- C3 witness for the amended theorem: an uncapped pass over a
one-record store, and a capped (cap 1) pass over a two-record store
whose early break fires after one demotion — in both, the failed append
returns the I/O error with the demotion marks already applied and the
overflow file untouched. -/
theorem c3_failed_append_bodies_absent_witness :
    (¬(cfgC3.maxOnline ≥ 0 ∧
        (sC3.index.length : Int) ≤ cfgC3.maxOnline)) ∧
      (handleResidency cfgC3 false sC3).2 = some GoErr.ioFail ∧
      (handleResidency cfgC3 false sC3).1.records =
        (handleResidency cfgC3 true sC3).1.records ∧
      (¬(cfgC3cap.maxOnline ≥ 0 ∧
        (sC3cap.index.length : Int) ≤ cfgC3cap.maxOnline)) ∧
      (handleResidency cfgC3cap false sC3cap).2 = some GoErr.ioFail ∧
      (handleResidency cfgC3cap false sC3cap).1.records =
        (handleResidency cfgC3cap true sC3cap).1.records ∧
      (handleResidency cfgC3cap false sC3cap).1.overflow = [] :=
  ⟨by decide,
   (c3_failed_append_bodies_absent cfgC3 (fun _ => false) rfl sC3
     (by decide)).1,
   (c3_failed_append_bodies_absent cfgC3 (fun _ => false) rfl sC3
     (by decide)).2.1,
   by decide,
   (c3_failed_append_bodies_absent cfgC3cap (fun _ => false) rfl sC3cap
     (by decide)).1,
   (c3_failed_append_bodies_absent cfgC3cap (fun _ => false) rfl sC3cap
     (by decide)).2.1,
   (c3_failed_append_bodies_absent cfgC3cap (fun _ => false) rfl sC3cap
     (by decide)).2.2.2.1⟩

/-- C4 counterexample: with cap 0 and a keep-nothing predicate, the
successful sequence `Put 1; PutAll [1, 2, 3]` ends with one record in
the Resident state (the PutAll revives the demoted id 1 without
re-incrementing the counter, so the pass's early break fires one
demotion short), although the stored counter reads 0. -/
theorem c4_counterexample :
    cfgC4.maxOnline = 0 ∧
      (Put cfgC4 true true (openInit cfgC4) 1).1.2 = none ∧
      (PutAll cfgC4 true true
        (Put cfgC4 true true (openInit cfgC4) 1).2 [1, 2, 3]).1.2 = none ∧
      residentCount sC4 = 1 ∧
      sC4.onlineCount = 0 := by
  decide

/-- C4 (amended): with `max_in_memory = n ≥ 0` and a residency predicate
returning false for every body, after any sequence of `Put` and `PutAll`
operations (all disk appends succeeding) the stored `onlineCount`
counter satisfies `onlineCount ≤ n`; the number of records actually in
the Resident state may exceed `n` (see the counterexample), because an
update reviving a demoted record does not re-increment the counter. -/
theorem c4_counter_cap (cfg : Cfg ID T) (keep : T → Bool)
    (hres : cfg.residencyFn = some keep) (hkeep : ∀ v, keep v = false)
    (hcap : 0 ≤ cfg.maxOnline) (hcov : Covers cfg.piOrder)
    (ops : List (Op T)) :
    (execOps cfg ops (openInit cfg)).onlineCount ≤ cfg.maxOnline := by
  have hinit : StructInv (openInit cfg) := by
    refine ⟨?_, rfl, List.nodup_nil⟩
    simp [openInit, residentCount]
  exact (execOps_cap hres hkeep hcap hcov ops (openInit cfg) hinit hcap).2

/-- C4 witness: the amended counter bound applied to the counterexample
sequence itself. -/
theorem c4_counter_cap_witness :
    (0 : Int) ≤ cfgC4.maxOnline ∧
      (execOps cfgC4 opsC4 (openInit cfgC4)).onlineCount ≤ cfgC4.maxOnline :=
  ⟨by decide,
   c4_counter_cap cfgC4 (fun _ => false) rfl (fun _ => rfl) (by decide)
     canonicalOrder_covers opsC4⟩

/-- C5 counterexample: with `MaxOnlineRecords` absent, `Validate`
installs `LOW = -1`; a store built from those options (residency
predicate keeping nothing) demotes the very first Put to the overflow
file — refuting "residency pass is disabled when the option is
absent". -/
theorem c5_counterexample :
    optsC5.maxOnlineRecords = none ∧
      (Options.Validate optsC5).1.maxOnlineRecords = some (-1) ∧
      cfgC5.maxOnline = -1 ∧
      cfgC5.residencyFn.isSome = true ∧
      (Put cfgC5 true true (openInit cfgC5) 7).2.records = [⟨none, false⟩] ∧
      (Put cfgC5 true true (openInit cfgC5) 7).2.overflow = [7] := by
  decide

/-- C5 (amended): an absent `max_in_memory` defaults to `LOW = -1`,
under which the residency pass runs after every mutation (and demotes
whenever a residency predicate rejects a body, see the counterexample);
the pass is a no-op — and no mutation ever touches the overflow file —
exactly when no residency predicate is configured. -/
theorem c5_absent_defaults_to_always_run (o : Options ID T)
    (hmax : o.maxOnlineRecords = none) (cfg : Cfg ID T)
    (hfn : cfg.residencyFn = none) :
    (Options.Validate o).1.maxOnlineRecords = some LOW ∧
      (∀ (ok : Bool) (s : State ID T), handleResidency cfg ok s = (s, none)) ∧
      (∀ (wk ofk : Bool) (s : State ID T) (v : T),
        (Put cfg wk ofk s v).2.overflow = s.overflow) ∧
      (∀ (wk ofk : Bool) (s : State ID T) (vs : List T),
        (PutAll cfg wk ofk s vs).2.overflow = s.overflow) := by
  refine ⟨?_, ?_, ?_, ?_⟩
  · rw [Options.Validate]
    repeat' split
    all_goals simp_all [LOW]
  · intro ok s
    rw [handleResidency, hfn]
  · intro wk ofk s v
    exact Put_overflow_of_no_residency hfn wk ofk s v
  · intro wk ofk s vs
    exact PutAll_overflow_of_no_residency hfn wk ofk s vs

/-- C5 witness for the amended theorem. -/
theorem c5_absent_defaults_to_always_run_witness :
    optsC5.maxOnlineRecords = none ∧
      (Options.Validate optsC5).1.maxOnlineRecords = some LOW ∧
      handleResidency cfgC5n true (openInit cfgC5n) =
        (openInit cfgC5n, none) ∧
      (Put cfgC5n true true (openInit cfgC5n) 7).2.overflow = [] :=
  ⟨rfl,
   (c5_absent_defaults_to_always_run optsC5 rfl cfgC5n rfl).1,
   (c5_absent_defaults_to_always_run optsC5 rfl cfgC5n rfl).2.1 true
     (openInit cfgC5n),
   (c5_absent_defaults_to_always_run optsC5 rfl cfgC5n rfl).2.2.1 true true
     (openInit cfgC5n) 7⟩

/-- C6 counterexample: cap 1, keep-nothing predicate, store reached by
Put 1; Put 2 and the in-place update of id 2 — at pass entry
`onlineCount = 1 ≤ 1`, yet the pass (guarded by `len(index) = 2 > 1`)
demotes the Resident record, changing the store. -/
theorem c6_counterexample :
    midC6.onlineCount ≤ cfgC6.maxOnline ∧
      (handleResidency cfgC6 true midC6).1 ≠ midC6 := by
  decide

/-- C6 (amended): with a cap `n ≥ 0` configured, the residency pass is
guarded by the id-map size, which also counts demoted entries: whenever
`len(index) ≤ n` the pass returns the store unchanged (and without
touching the disk); when `len(index) > n` it may demote even though
`onlineCount ≤ n` at entry (see the counterexample). -/
theorem c6_pass_guard_is_index_size (cfg : Cfg ID T) (ok : Bool)
    (s : State ID T) (hcap : 0 ≤ cfg.maxOnline)
    (hlen : (s.index.length : Int) ≤ cfg.maxOnline) :
    handleResidency cfg ok s = (s, none) := by
  rw [handleResidency]
  cases cfg.residencyFn with
  | none => rfl
  | some keep =>
    try dsimp only
    rw [if_pos ⟨hcap, hlen⟩]

/-- C6 witness: the guard applied to the one-record store under cap 1. -/
theorem c6_pass_guard_is_index_size_witness :
    (0 : Int) ≤ cfgC6.maxOnline ∧
      ((execOps cfgC6 [Op.put 1] (openInit cfgC6)).index.length : Int) ≤
        cfgC6.maxOnline ∧
      handleResidency cfgC6 true (execOps cfgC6 [Op.put 1] (openInit cfgC6)) =
        (execOps cfgC6 [Op.put 1] (openInit cfgC6), none) :=
  ⟨by decide, by decide,
   c6_pass_guard_is_index_size cfgC6 true
     (execOps cfgC6 [Op.put 1] (openInit cfgC6)) (by decide) (by decide)⟩

/-- C7: during WAL replay the user's checker (validator) chain is never
consulted — replay is invariant under replacing the chain — and each
replayed entry acts exactly as logged: a final Put entry leaves the
record table holding precisely the logged value with the tombstone flag
clear, and a final Delete entry removes the id from the index. -/
theorem c7_replay_exact_no_validators (cfg : Cfg ID T) (ok : Bool)
    (entries : List (WalEntry ID T)) (s : State ID T)
    (cs : List (Option T → T → Option T × Option GoErr))
    (hvalid : IndexValid s) :
    replayWAL { cfg with checkers := cs } ok entries s =
        replayWAL cfg ok entries s ∧
      (∀ (pre : List (WalEntry ID T)) (id : ID) (v : T),
        recordOf (replayLoop (pre ++ [WalEntry.put id v]) s) id =
          some ⟨some v, false⟩) ∧
      (∀ (pre : List (WalEntry ID T)) (id : ID),
        lookupIdx (replayLoop (pre ++ [WalEntry.del id]) s).index id =
          none) := by
  refine ⟨rfl, ?_, ?_⟩
  · intro pre id v
    rw [replayLoop, List.foldl_append]
    simp only [List.foldl_cons, List.foldl_nil]
    exact addOrUpdate_recordOf (replayLoop_IndexValid pre s hvalid) id v
  · intro pre id
    rw [replayLoop, List.foldl_append]
    simp only [List.foldl_cons, List.foldl_nil]
    exact deleteByID_lookup_none (replayLoop_IndexValid pre s hvalid) id

/-- C7 witness: with an always-rejecting checker chain configured,
replaying a logged Put restores the logged body exactly. -/
theorem c7_replay_exact_no_validators_witness :
    (openInit cfgC7).index = [] ∧
      recordOf (replayLoop [WalEntry.put 1 10] (openInit cfgC7)) 1 =
        some ⟨some 10, false⟩ :=
  ⟨rfl,
   (c7_replay_exact_no_validators cfgC7 true [] (openInit cfgC7)
       cfgC7.checkers
       (by
         intro kv hkv
         simp [openInit] at hkv)).2.1 [] 1 10⟩

/-- C8 (code-bug evaluation): on a store containing a Demoted record
(body absent, not tombstoned, still in the id map), `Delete` evaluates
`p(*rec.value)` on the nil body and panics with a nil dereference,
instead of skipping demoted records and completing normally. -/
theorem c8_delete_panics_on_demoted :
    sC8.records = [⟨none, false⟩] ∧
      sC8.index = [(1, 0)] ∧
      Delete cfgC8 true (fun _ => true) sC8 =
        (sC8, none, some GoErr.nilDeref) := by
  decide

/-- C9 (code-bug evaluation): Put of bodies 1..20 with `keep(u) =
u.id % 2 == 1` and `max_in_memory = -1`, then `Get(true)`: the scan
returns the odd (online) bodies first and the even (overflow) bodies
after them — not ids 1..20 in order as the spec scenario D and the
repository's own order-preservation test demand. -/
theorem c9_get_order_diverges :
    Get (some (fun _ => true)) sC9 =
        [1, 3, 5, 7, 9, 11, 13, 15, 17, 19,
         2, 4, 6, 8, 10, 12, 14, 16, 18, 20] ∧
      Get (some (fun _ => true)) sC9 ≠
        (List.range 20).map (fun i => i + 1) := by
  decide

/-- C10: if the WAL append inside `Put` fails (after a successful id
computation and checker run), `Put` returns the zero value of the ID
type together with the error, and the store state — record table, index,
online count, files — is left exactly as it was. -/
theorem c10_put_wal_failure_no_mutation (cfg : Cfg ID T) (s : State ID T)
    (v : T) (id : ID) (hid : cfg.idFunc v = (id, none))
    (v2 : T) (hchk : runCheckers cfg.checkers (currentOf s id) v = (v2, none))
    (ok : Bool) :
    Put cfg false ok s v = ((cfg.zeroID, some GoErr.ioFail), s) := by
  rw [Put, hid]
  try dsimp only
  rw [hchk]
  try rfl

/-- C10 witness at a concrete store and body. -/
theorem c10_put_wal_failure_no_mutation_witness :
    cfgC10.idFunc 7 = (7, none) ∧
      Put cfgC10 false true (openInit cfgC10) 7 =
        ((0, some GoErr.ioFail), openInit cfgC10) :=
  ⟨rfl, c10_put_wal_failure_no_mutation cfgC10 (openInit cfgC10) 7 7 rfl 7 rfl
    true⟩

end Flea
